import Mathlib

/-!
Shallow embedding of `AI_dashboard.py`, the single source file of the
AI-Powered-Sales-Dashboard repository.  The script is a linear pipeline:
load a CSV (UTF-8 with a Latin-1 fallback), strip the column names,
require columns "Month" and "Sales", coerce both to numeric and drop rows
that fail, fit an ordinary-least-squares line of Sales on Month, predict
the six months after `int(max(Month))`, label anomalies with an isolation
forest on the Sales column, group means per month, and report four summary
statistics.  Machine reals are modelled by `ℚ`; the isolation forest is an
external library call and is modelled by an abstract deterministic
function of (seed, contamination, Sales column).
-/

set_option maxHeartbeats 1000000

namespace SalesDash

/-- Equality of fallible results is decidable when it is on both sides. -/
instance {ε α : Type} [DecidableEq ε] [DecidableEq α] :
    DecidableEq (Except ε α) := fun a b =>
  match a, b with
  | Except.ok x, Except.ok y =>
    if h : x = y then isTrue (by rw [h]) else isFalse (by simp [h])
  | Except.error x, Except.error y =>
    if h : x = y then isTrue (by rw [h]) else isFalse (by simp [h])
  | Except.ok _, Except.error _ => isFalse (by simp)
  | Except.error _, Except.ok _ => isFalse (by simp)

/-- A raw table cell after parsing: either a value that `pd.to_numeric`
converts to a number, or one that does not (coerced to NaN). -/
inductive Cell where
  | num (q : ℚ)
  | nonNum
deriving DecidableEq

/-- `pd.to_numeric(col, errors='coerce')` applied to one cell
(line 46/47): a convertible value becomes that number, anything else
becomes the missing marker NaN, modelled by `none`. -/
def toNumeric : Cell → Option ℚ
  | Cell.num q => some q
  | Cell.nonNum => none

/-- One cleaned row: line 45 projects the frame to the columns
"Month" and "Sales" only, so a record has exactly those two fields. -/
structure Record where
  month : ℚ
  sales : ℚ
deriving DecidableEq

/-- A cleaned dataset: ordered list of records, order = input row order. -/
abbrev Dataset := List Record

/-- A loaded table: column names and rows of raw cells (row i, column j). -/
structure Table where
  cols : List String
  rows : List (List Cell)
deriving DecidableEq

/-- Code points Python's `str.strip()` removes, restricted to the
Latin-1 range that can arise from the two decoders modelled here
(ASCII whitespace, the C1 separators, NEL 0x85 and NBSP 0xA0). -/
def isPySpace (c : Char) : Bool :=
  [9, 10, 11, 12, 13, 28, 29, 30, 31, 32, 133, 160].contains c.toNat

/-- Python `str.strip()` on the character list of a string. -/
def pyStripList (cs : List Char) : List Char :=
  ((cs.dropWhile isPySpace).reverse.dropWhile isPySpace).reverse

/-- Python `str.strip()` (used by `df.columns.str.strip()` at line 31). -/
def pyStrip (s : String) : String :=
  String.mk (pyStripList s.data)

/-- Line 31: `df.columns = df.columns.str.strip()`. -/
def stripCols (t : Table) : Table :=
  { cols := t.cols.map pyStrip, rows := t.rows }

/-- Index of the "Month" column (pandas column selection by name). -/
def monthIdx (t : Table) : Option ℕ :=
  t.cols.findIdx? (· == "Month")

/-- Index of the "Sales" column (pandas column selection by name). -/
def salesIdx (t : Table) : Option ℕ :=
  t.cols.findIdx? (· == "Sales")

/-- The cell of a row at a column index. -/
def cellAt (row : List Cell) (i : ℕ) : Cell :=
  row.getD i Cell.nonNum

/-- Lines 45-48 applied to one row: project to the Month and Sales cells,
coerce both to numeric, and keep the row only if neither is missing
(`df.dropna()` drops a row with NaN in either column). -/
def coerceRecord (mi si : ℕ) (row : List Cell) : Option Record :=
  match toNumeric (cellAt row mi), toNumeric (cellAt row si) with
  | some m, some s => some { month := m, sales := s }
  | _, _ => none

/-- Lines 45-48: `df = df[['Month','Sales']]`, `pd.to_numeric` on both
columns, `df.dropna()`.  The fallthrough case is unreachable after the
line-41 column check. -/
def cleanTable (t : Table) : Dataset :=
  match monthIdx t, salesIdx t with
  | some mi, some si => t.rows.filterMap (coerceRecord mi si)
  | _, _ => []

/-- Error surface of the script: `st.error` followed by `st.stop`
(a user-visible message), versus an exception raised outside the
lines-22-38 `try` block, which propagates uncaught. -/
inductive PErr where
  | user (msg : String)
  | uncaught (msg : String)
deriving DecidableEq

/-- Line 42's message. -/
def schemaErrMsg : String :=
  "CSV must have 'Month' and 'Sales' columns (case-sensitive)"

/-- Lines 31-48: strip the column names, halt with a user-visible schema
error when "Month" or "Sales" is absent (lines 41-43), otherwise clean. -/
def cleanPipe (t : Table) : Except PErr Dataset :=
  let t' := stripCols t
  if t'.cols.contains "Month" && t'.cols.contains "Sales" then
    Except.ok (cleanTable t')
  else
    Except.error (PErr.user schemaErrMsg)

/-- A cleaned dataset viewed again as a table: exactly the two columns
"Month" and "Sales", every cell numeric, no missing values.  This is the
shape of "already clean" input data. -/
def datasetToTable (ds : Dataset) : Table :=
  { cols := ["Month", "Sales"],
    rows := ds.map (fun r => [Cell.num r.month, Cell.num r.sales]) }

/-- pandas `Series.sum()` over a column. -/
def seriesSum (l : List ℚ) : ℚ :=
  l.foldl (· + ·) 0

/-- pandas `Series.mean()` over a column (sum divided by length). -/
def seriesMean (l : List ℚ) : ℚ :=
  seriesSum l / l.length

/-- pandas `Series.max()` over a non-empty column. -/
def listMax : List ℚ → ℚ
  | [] => 0
  | v :: rest => rest.foldl max v

/-- pandas `Series.idxmax()`: position and value of the first occurrence
of the maximum.  On ties the earlier element wins. -/
def idxmax : List ℚ → Option (ℕ × ℚ)
  | [] => none
  | v :: rest =>
    match idxmax rest with
    | none => some (0, v)
    | some (i, bv) => if v < bv then some (i + 1, bv) else some (0, v)

/-- `df['Month'].max()` (line 56). -/
def maxMonth (ds : Dataset) : ℚ :=
  listMax (ds.map Record.month)

/-- Python `int()` on a rational: truncation toward zero, as applied to
`df['Month'].max()` at line 56. -/
def ratTrunc (q : ℚ) : ℤ :=
  Int.tdiv q.num (q.den : ℤ)

/-- Number of records as a rational. -/
def nQ (ds : Dataset) : ℚ :=
  (ds.length : ℚ)

/-- Sum of the Month column. -/
def sumX (ds : Dataset) : ℚ :=
  (ds.map Record.month).sum

/-- Sum of the Sales column. -/
def sumY (ds : Dataset) : ℚ :=
  (ds.map Record.sales).sum

/-- Sum of Month·Sales. -/
def sumXY (ds : Dataset) : ℚ :=
  (ds.map (fun r => r.month * r.sales)).sum

/-- Sum of Month². -/
def sumXX (ds : Dataset) : ℚ :=
  (ds.map (fun r => r.month * r.month)).sum

/-- Determinant of the OLS normal equations, `n·Σx² − (Σx)²`. -/
def olsDenom (ds : Dataset) : ℚ :=
  nQ ds * sumXX ds - sumX ds * sumX ds

/-- Closed-form OLS slope of Sales on Month, the unique least-squares
slope whenever `olsDenom ds ≠ 0`.  Models the coefficient computed by
`LinearRegression().fit(x, y)` at lines 53-54. -/
def olsSlope (ds : Dataset) : ℚ :=
  (nQ ds * sumXY ds - sumX ds * sumY ds) / olsDenom ds

/-- Closed-form OLS intercept, `(Σy − a·Σx)/n`. -/
def olsIntercept (ds : Dataset) : ℚ :=
  (sumY ds - olsSlope ds * sumX ds) / nQ ds

/-- Message of the exception sklearn raises when `fit` receives no rows. -/
def fitErrMsg : String :=
  "Found array with 0 sample(s) while a minimum of 1 is required"

/-- Lines 53-54: `model.fit(x, y)`.  sklearn raises a `ValueError` when
the cleaned frame is empty and otherwise returns fitted coefficients;
the closed form is the least-squares solution (unique when
`olsDenom ds ≠ 0`). -/
def fitLinReg (ds : Dataset) : Except String (ℚ × ℚ) :=
  if ds.isEmpty then Except.error fitErrMsg
  else Except.ok (olsSlope ds, olsIntercept ds)

/-- Residual sum of squares of the line `s = a·m + b` on a dataset. -/
def rss (ds : Dataset) (a b : ℚ) : ℚ :=
  (ds.map (fun r => (r.sales - (a * r.month + b)) ^ 2)).sum

/-- Lines 56-57: months `int(max)+1 .. int(max)+6` with the model's
prediction `a·m + b` at each. -/
def futureMonths (ds : Dataset) (ab : ℚ × ℚ) : List (ℚ × ℚ) :=
  (List.range 6).map (fun n : ℕ =>
    (((ratTrunc (maxMonth ds) + 1 + (n : ℤ) : ℤ) : ℚ),
     ab.1 * ((ratTrunc (maxMonth ds) + 1 + (n : ℤ) : ℤ) : ℚ) + ab.2))

/-- Abstract model of `sklearn.ensemble.IsolationForest`: with a fixed
`random_state` the library is a deterministic function of the seed, the
contamination parameter and the feature column, returning one ±1 label
per sample.  The length contract is part of the library's interface. -/
structure IsoModel where
  fitPredict : ℕ → ℚ → List ℚ → List Int
  length_eq : ∀ seed c xs, (fitPredict seed c xs).length = xs.length

/-- Lines 60-61: `IsolationForest(contamination=0.15, random_state=42)`
fitted and applied to the single feature `df[['Sales']]`. -/
def anomalyLabels (iso : IsoModel) (ds : Dataset) : List Int :=
  iso.fitPredict 42 (3 / 20) (ds.map Record.sales)

/-- Line 62: `anomalies = df[df['anomaly'] == -1]`. -/
def anomalies (ds : Dataset) (labels : List Int) : Dataset :=
  ((ds.zip labels).filter (fun p => p.2 == -1)).map Prod.fst

/-- Line 104: `anomaly_count = len(anomalies)` — a row count. -/
def anomalyCount (ds : Dataset) (labels : List Int) : ℕ :=
  (anomalies ds labels).length

/-- Lines 65-66: `groupby('Month')['Sales'].mean()` — one entry per
distinct Month (pandas sorts the keys), holding the mean Sales of the
records sharing that Month. -/
def groupMean (ds : Dataset) : List (ℚ × ℚ) :=
  (((ds.map Record.month).insertionSort (· ≤ ·)).dedup).map (fun m =>
    (m, seriesMean ((ds.filter (fun r => r.month == m)).map Record.sales)))

/-- Line 101: `df['Sales'].sum()`. -/
def totalSales (ds : Dataset) : ℚ :=
  seriesSum (ds.map Record.sales)

/-- Line 102: `df['Sales'].mean()`. -/
def avgSales (ds : Dataset) : ℚ :=
  seriesMean (ds.map Record.sales)

/-- Line 103: `df.loc[df['Sales'].idxmax(), 'Month']` — the Month of the
first row attaining the maximum Sales. -/
def peakMonth (ds : Dataset) : ℚ :=
  match idxmax (ds.map Record.sales) with
  | some (i, _) => (ds.getD i { month := 0, sales := 0 }).month
  | none => 0

/-- Everything the script renders from a successful run. -/
structure Output where
  forecast : List (ℚ × ℚ)
  labels : List Int
  monthlyAvg : List (ℚ × ℚ)
  monthlyAnoms : List (ℚ × ℚ)
  total : ℚ
  avg : ℚ
  peak : ℚ
  anomCount : ℕ
deriving DecidableEq

/-- The whole pipeline of the script on a loaded table, parametrised by
the isolation-forest model.  Validation failures (lines 41-43) are
user-visible errors; a fit failure at line 54 happens outside the
`try` block of lines 22-38 and is therefore an uncaught exception. -/
def pipeline (iso : IsoModel) (t : Table) : Except PErr Output :=
  match cleanPipe t with
  | Except.error e => Except.error e
  | Except.ok ds =>
    match fitLinReg ds with
    | Except.error m => Except.error (PErr.uncaught m)
    | Except.ok ab =>
      let labels := anomalyLabels iso ds
      let an := anomalies ds labels
      Except.ok
        { forecast := futureMonths ds ab
          labels := labels
          monthlyAvg := groupMean ds
          monthlyAnoms := groupMean an
          total := totalSales ds
          avg := avgSales ds
          peak := peakMonth ds
          anomCount := anomalyCount ds labels }

/-- Is the byte a UTF-8 continuation byte (`10xxxxxx`)? -/
def isCont (b : ℕ) : Bool :=
  128 ≤ b && b < 192

/-- UTF-8 decoding with explicit fuel (structural recursion so that the
definition evaluates by reduction).  Any fuel at least the length of the
byte list gives the decoder's answer, since every step consumes at least
one byte. -/
def decodeUtf8Go : ℕ → List ℕ → Option (List ℕ)
  | _, [] => some []
  | 0, _ :: _ => none
  | fuel + 1, b :: rest =>
    if b < 128 then (decodeUtf8Go fuel rest).map (fun t => b :: t)
    else if 194 ≤ b && b < 224 then
      match rest with
      | c1 :: rest1 =>
        if isCont c1 then
          (decodeUtf8Go fuel rest1).map (fun t =>
            ((b - 192) * 64 + (c1 - 128)) :: t)
        else none
      | [] => none
    else if 224 ≤ b && b < 240 then
      match rest with
      | c1 :: c2 :: rest2 =>
        if isCont c1 && isCont c2 then
          (decodeUtf8Go fuel rest2).map (fun t =>
            ((b - 224) * 4096 + (c1 - 128) * 64 + (c2 - 128)) :: t)
        else none
      | _ => none
    else if 240 ≤ b && b < 245 then
      match rest with
      | c1 :: c2 :: c3 :: rest3 =>
        if isCont c1 && isCont c2 && isCont c3 then
          (decodeUtf8Go fuel rest3).map (fun t =>
            ((b - 240) * 262144 + (c1 - 128) * 4096 + (c2 - 128) * 64
              + (c3 - 128)) :: t)
        else none
      | _ => none
    else none

/-- UTF-8 decoding of a byte list into code points, `none` on a malformed
stream (models the `UnicodeDecodeError` of line 15).  One-byte, two-byte,
three-byte and four-byte sequences with lead-byte ranges C2-DF, E0-EF,
F0-F4 and continuation bytes 80-BF. -/
def decodeUtf8 (l : List ℕ) : Option (List ℕ) :=
  decodeUtf8Go l.length l

/-- Latin-1 (ISO-8859-1) decoding: every byte value is the code point of
a character, so decoding never fails on any byte sequence (line 16). -/
def decodeLatin1 (b : List ℕ) : Option (List ℕ) :=
  some b

/-- Code points rendered as a string. -/
def textToString (t : List ℕ) : String :=
  String.mk (t.map Char.ofNat)

/-- One digit of a numeric literal. -/
def digitVal (c : Char) : Option ℕ :=
  if 48 ≤ c.toNat && c.toNat ≤ 57 then some (c.toNat - 48) else none

/-- All-digit run folded into a natural number; `some 0` on the empty
run (callers require at least one digit overall). -/
def digitsToNat (cs : List Char) : Option ℕ :=
  cs.foldl (fun acc c => acc.bind (fun a => (digitVal c).map (fun d => a * 10 + d)))
    (some 0)

/-- The numeric grammar accepted by `pd.to_numeric` restricted to plain
decimal literals: optional sign, then digits, a dot-separated fraction,
or both, with at least one digit. -/
def parseNumChars (cs : List Char) : Option ℚ :=
  match cs.splitOn '.' with
  | [w] =>
    if w.isEmpty then none
    else (digitsToNat w).map (fun a => (a : ℚ))
  | [w, f] =>
    if w.isEmpty && f.isEmpty then none
    else
      match digitsToNat w, digitsToNat f with
      | some a, some b => some ((a : ℚ) + (b : ℚ) / (10 : ℚ) ^ f.length)
      | _, _ => none
  | _ => none

/-- Numeric parse of a cell's text, sign included. -/
def parseNum (s : String) : Option ℚ :=
  match s.data with
  | '-' :: rest => (parseNumChars rest).map (fun q => -q)
  | '+' :: rest => parseNumChars rest
  | cs => parseNumChars cs

/-- A raw text cell as seen by the eventual `pd.to_numeric`: numeric
text is a number, anything else the missing marker. -/
def parseCell (s : String) : Cell :=
  match parseNum s with
  | some q => Cell.num q
  | none => Cell.nonNum

/-- Minimal model of `pd.read_csv` on decoded text: lines split on the
newline code point 10, fields on the comma 44, first line the header,
blank lines skipped (pandas `skip_blank_lines` default). -/
def rawParseCsv (t : List ℕ) : Table :=
  match t.splitOn 10 with
  | [] => { cols := [], rows := [] }
  | header :: body =>
    { cols := (header.splitOn 44).map textToString
      rows := (body.filter (fun l => !l.isEmpty)).map (fun l =>
        (l.splitOn 44).map (fun c => parseCell (textToString c))) }

/-- Lines 12-16, `read_csv_auto`: parse via UTF-8, and on a decode
failure retry with Latin-1 (which always succeeds). -/
def read_csv_auto (b : List ℕ) : Table :=
  match decodeUtf8 b with
  | some t => rawParseCsv t
  | none =>
    match decodeLatin1 b with
    | some t => rawParseCsv t
    | none => rawParseCsv []

/-- Cleaned data produced through one fixed decoding path: the primary
(UTF-8) path when the decoder is `decodeUtf8`, the fallback path when it
is `decodeLatin1`. -/
def cleanedVia (dec : List ℕ → Option (List ℕ)) (b : List ℕ) :
    Option (Except PErr Dataset) :=
  (dec b).map (fun t => cleanPipe (rawParseCsv t))

/-- A concrete isolation-forest behaviour (labels every record normal),
used to instantiate the pipeline at concrete inputs. -/
def trivIso : IsoModel where
  fitPredict := fun _ _ xs => xs.map (fun _ => 1)
  length_eq := by intro seed c xs; simp

/-- Spec-side statement of the Forecaster's contract for fitted
coefficients `(a, b)`: exactly six points; the i-th has the integer month
`trunc(max(Month)) + 1 + i` (so the months are consecutive and
ascending) and the value `a·m + b`; and `(a, b)` minimise the residual
sum of squares, i.e. they are the OLS fit. -/
def forecasterSpec (ds : Dataset) (a b : ℚ) : Prop :=
  (futureMonths ds (a, b)).length = 6 ∧
  (∀ i, ∀ hh : i < (futureMonths ds (a, b)).length,
      (futureMonths ds (a, b)).get ⟨i, hh⟩
        = (((ratTrunc (maxMonth ds) : ℚ) + 1 + (i : ℚ)),
           a * (((ratTrunc (maxMonth ds) : ℚ)) + 1 + (i : ℚ)) + b)) ∧
  (∀ a' b' : ℚ, rss ds a b ≤ rss ds a' b')

/-- Does a projected row survive cleaning (both cells coerce)? -/
def rowKeeps (mi si : ℕ) (row : List Cell) : Bool :=
  (toNumeric (cellAt row mi)).isSome && (toNumeric (cellAt row si)).isSome

/-- The record a surviving row contributes: the numeric coercions of its
Month and Sales cells. -/
def rowRecord (mi si : ℕ) (row : List Cell) : Record :=
  { month := (toNumeric (cellAt row mi)).getD 0
    sales := (toNumeric (cellAt row si)).getD 0 }

/-- Spec-side statement of the Cleaner's contract: the cleaned dataset
keeps, in input order, exactly the rows whose Month and Sales cells both
coerce, each projected to those two coerced values. -/
def cleanerSpec (t : Table) (mi si : ℕ) : Prop :=
  cleanTable t = (t.rows.filter (rowKeeps mi si)).map (rowRecord mi si)

/-- Spec-side statement of the Validator's contract: a missing (exact,
case-sensitive) "Month" or "Sales" column halts the pipeline with the
schema error before anything else runs, and when both are present the
pipeline never reports a user-visible error. -/
def validatorSpec (iso : IsoModel) (t : Table) : Prop :=
  (¬ ((stripCols t).cols.contains "Month"
        && (stripCols t).cols.contains "Sales") = true →
    pipeline iso t = Except.error (PErr.user schemaErrMsg)) ∧
  (((stripCols t).cols.contains "Month"
        && (stripCols t).cols.contains "Sales") = true →
    ∀ msg, pipeline iso t ≠ Except.error (PErr.user msg))

/-- Spec-side statement of the Presenter's summary: total = sum of
Sales, average = mean of Sales, peak month = Month of a record of
maximal Sales, anomaly count = number of records labelled `-1`. -/
def presenterSpec (iso : IsoModel) (ds : Dataset) : Prop :=
  totalSales ds = (ds.map Record.sales).sum ∧
  avgSales ds = (ds.map Record.sales).sum / (ds.length : ℚ) ∧
  (∃ i, ∃ h : i < ds.length, peakMonth ds = (ds.get ⟨i, h⟩).month ∧
      ∀ j, ∀ hj : j < ds.length,
        (ds.get ⟨j, hj⟩).sales ≤ (ds.get ⟨i, h⟩).sales) ∧
  anomalyCount ds (anomalyLabels iso ds)
    = (anomalyLabels iso ds).countP (fun x => x == -1)

/-- Spec-side statement of the Aggregator's contract on one dataset:
the grouped keys are exactly the distinct Month values, each occurring
once, and each key's value is the arithmetic mean of the Sales of the
records sharing that Month. -/
def aggSpec (ds : Dataset) : Prop :=
  (∀ m : ℚ, m ∈ (groupMean ds).map Prod.fst ↔ m ∈ ds.map Record.month) ∧
  ((groupMean ds).map Prod.fst).Nodup ∧
  ∀ p ∈ groupMean ds,
    p.2 = ((ds.filter (fun r => r.month == p.1)).map Record.sales).sum
        / ((ds.filter (fun r => r.month == p.1)).length : ℚ)

/-- Spec-side statement of the peak-month tie rule: the reported peak
month belongs to a record of maximal Sales, and every earlier record has
strictly smaller Sales — so on ties the first record in input order
wins. -/
def peakSpec (ds : Dataset) : Prop :=
  ∃ i, ∃ h : i < ds.length, peakMonth ds = (ds.get ⟨i, h⟩).month ∧
    (∀ j, ∀ hj : j < ds.length,
      (ds.get ⟨j, hj⟩).sales ≤ (ds.get ⟨i, h⟩).sales) ∧
    ∀ j, ∀ hj : j < ds.length, j < i →
      (ds.get ⟨j, hj⟩).sales < (ds.get ⟨i, h⟩).sales

/-- Spec-side statement of the Loader's contract on an ASCII byte
stream: both decoders return the bytes unchanged, so the primary and
fallback paths produce identical cleaned data; Latin-1 decoding never
fails on any byte stream; and on a UTF-8 decode failure the loader
falls back to Latin-1. -/
def loaderSpec (b : List ℕ) : Prop :=
  decodeUtf8 b = some b ∧
  decodeLatin1 b = some b ∧
  cleanedVia decodeUtf8 b = cleanedVia decodeLatin1 b ∧
  (∀ bs : List ℕ, (decodeLatin1 bs).isSome = true) ∧
  (∀ bs : List ℕ, decodeUtf8 bs = none → read_csv_auto bs = rawParseCsv bs)

/-- A cleaned dataset with a non-integer maximum Month (`7/2` cleans
successfully, e.g. from the CSV text "3.5"). -/
def dsHalf : Dataset :=
  [{ month := 0, sales := 0 }, { month := mkRat 7 2, sales := 1 }]

/-- A small non-degenerate dataset lying exactly on the line `s = 2m`. -/
def dsLine : Dataset :=
  [{ month := 1, sales := 2 }, { month := 2, sales := 4 }]

/-- A table with an extra column, one non-numeric Month cell and
otherwise numeric cells. -/
def tblMixed : Table :=
  { cols := ["X", "Month", "Sales"]
    rows := [[Cell.num 9, Cell.num 1, Cell.num 10],
             [Cell.num 9, Cell.nonNum, Cell.num 5],
             [Cell.num 9, Cell.num 3, Cell.num 30]] }

/-- A table whose column names have the wrong case. -/
def tblWrongCase : Table :=
  { cols := ["month", "sales"], rows := [[Cell.num 1, Cell.num 2]] }

/-- A well-formed table with the required columns. -/
def tblRightCase : Table :=
  { cols := ["Month", "Sales"], rows := [[Cell.num 1, Cell.num 2]] }

/-- A table whose rows all fail numeric coercion: cleaning leaves an
empty dataset. -/
def tblAllBad : Table :=
  { cols := ["Month", "Sales"], rows := [[Cell.nonNum, Cell.nonNum]] }

/-- A dataset with a tie for maximal Sales (months 2 and 3 both at 9). -/
def dsTie : Dataset :=
  [{ month := 1, sales := 5 }, { month := 2, sales := 9 },
   { month := 3, sales := 9 }]

/-- A dataset with two records in month 2 and one in month 1. -/
def dsGroups : Dataset :=
  [{ month := 2, sales := 10 }, { month := 1, sales := 4 },
   { month := 2, sales := 20 }]

/-- The UTF-8 encoding of the CSV text "Month<NBSP>,Sales\n1,2", where
<NBSP> is U+00A0, encoded as the two bytes C2 A0.  Valid UTF-8; its
Latin-1 reading turns the header cell into "MonthÂ ". -/
def nbspBytes : List ℕ :=
  [77, 111, 110, 116, 104, 194, 160, 44, 83, 97, 108, 101, 115, 10, 49, 44, 50]

/-- The ASCII bytes of the CSV text "Month,Sales\n1,2". -/
def asciiBytes : List ℕ :=
  [77, 111, 110, 116, 104, 44, 83, 97, 108, 101, 115, 10, 49, 44, 50]

/-- `filterMap` is an order-preserving filter followed by a projection,
whenever `p` tests definedness of `f` and `g` extracts its value. -/
theorem filterMap_eq_filter_map {α β : Type} (f : α → Option β) (g : α → β)
    (p : α → Bool) (hp : ∀ a, p a = (f a).isSome)
    (hg : ∀ a b, f a = some b → g a = b) :
    ∀ l : List α, l.filterMap f = (l.filter p).map g := by
  intro l
  induction l with
  | nil => simp
  | cons a t ih =>
    cases hfa : f a with
    | none =>
      have hpa := hp a
      rw [hfa] at hpa
      simp only [List.filterMap_cons, List.filter_cons, hfa, hpa,
        Option.isSome_none, Bool.false_eq_true, if_false]
      exact ih
    | some b =>
      have hpa := hp a
      rw [hfa] at hpa
      simp only [List.filterMap_cons, List.filter_cons, hfa, hpa,
        Option.isSome_some, if_true, List.map_cons]
      rw [hg a b hfa, ih]

/-- Folding addition from any seed equals seed plus list sum. -/
theorem foldl_add_eq (l : List ℚ) : ∀ a : ℚ, l.foldl (· + ·) a = a + l.sum := by
  induction l with
  | nil => intro a; simp
  | cons x t ih => intro a; simp only [List.foldl_cons, ih, List.sum_cons]; ring

/-- pandas `Series.sum()` agrees with the mathematical list sum. -/
theorem seriesSum_eq_sum (l : List ℚ) : seriesSum l = l.sum := by
  simp [seriesSum, foldl_add_eq]

/-- `idxmax` succeeds exactly on non-empty columns. -/
theorem idxmax_isSome (l : List ℚ) (h : l ≠ []) : (idxmax l).isSome = true := by
  cases l with
  | nil => exact absurd rfl h
  | cons v rest =>
    cases hrest : idxmax rest with
    | none => simp [idxmax, hrest]
    | some p =>
      obtain ⟨i, bv⟩ := p
      by_cases hv : v < bv <;> simp [idxmax, hrest, hv]

/-- Specification of `idxmax`: the returned index is in range, holds the
returned value, that value is an upper bound of the column, and every
strictly earlier entry is strictly below it (first-occurrence rule). -/
theorem idxmax_spec :
    ∀ (l : List ℚ) (i : ℕ) (v : ℚ), idxmax l = some (i, v) →
      ∃ h : i < l.length, l.get ⟨i, h⟩ = v ∧
        (∀ j, ∀ hj : j < l.length, l.get ⟨j, hj⟩ ≤ v) ∧
        (∀ j, ∀ hj : j < l.length, j < i → l.get ⟨j, hj⟩ < v) := by
  intro l
  induction l with
  | nil => intro i v h; simp [idxmax] at h
  | cons a t ih =>
    intro i v h
    cases ht : idxmax t with
    | none =>
      have hmain : idxmax (a :: t) = some (0, a) := by
        rw [idxmax, ht]
      rw [hmain] at h
      obtain ⟨rfl, rfl⟩ : 0 = i ∧ a = v := by
        constructor <;> [exact congrArg Prod.fst (Option.some.inj h);
          exact congrArg Prod.snd (Option.some.inj h)]
      have htnil : t = [] := by
        cases t with
        | nil => rfl
        | cons b u => exact absurd ht (by
            have := idxmax_isSome (b :: u) (by simp)
            intro hnone
            rw [hnone] at this
            simp at this)
      subst htnil
      refine ⟨by simp, rfl, ?_, ?_⟩
      · intro j hj
        cases j with
        | zero => simp
        | succ j' => simp at hj
      · intro j hj hji
        omega
    | some p =>
      obtain ⟨i', bv⟩ := p
      have hmain : idxmax (a :: t)
          = if a < bv then some (i' + 1, bv) else some (0, a) := by
        rw [idxmax, ht]
      rw [hmain] at h
      obtain ⟨hi', hget, hle, hlt⟩ := ih i' bv ht
      by_cases hv : a < bv
      · rw [if_pos hv] at h
        obtain ⟨rfl, rfl⟩ : i' + 1 = i ∧ bv = v := by
          constructor <;> [exact congrArg Prod.fst (Option.some.inj h);
            exact congrArg Prod.snd (Option.some.inj h)]
        refine ⟨by simpa using Nat.succ_lt_succ hi', by simpa using hget, ?_, ?_⟩
        · intro j hj
          cases j with
          | zero => simpa using le_of_lt hv
          | succ j' => simpa using hle j' (by simpa using hj)
        · intro j hj hji
          cases j with
          | zero => simpa using hv
          | succ j' => simpa using hlt j' (by simpa using hj) (by omega)
      · rw [if_neg hv] at h
        obtain ⟨rfl, rfl⟩ : 0 = i ∧ a = v := by
          constructor <;> [exact congrArg Prod.fst (Option.some.inj h);
            exact congrArg Prod.snd (Option.some.inj h)]
        refine ⟨by simp, rfl, ?_, ?_⟩
        · intro j hj
          cases j with
          | zero => simp
          | succ j' =>
            have h1 := hle j' (by simpa using hj)
            have h2 : bv ≤ a := le_of_not_lt hv
            simpa using le_trans h1 h2
        · intro j hj hji
          omega

/-- Counting anomalous rows equals counting `-1` labels when the label
list has one entry per record. -/
theorem zip_filter_count :
    ∀ (ds : Dataset) (labels : List Int), labels.length = ds.length →
      ((ds.zip labels).filter (fun p => p.2 == -1)).length
        = labels.countP (fun x => x == -1) := by
  intro ds
  induction ds with
  | nil =>
    intro labels hlen
    have : labels = [] := List.length_eq_zero.mp (by simpa using hlen)
    subst this
    simp
  | cons r t ih =>
    intro labels hlen
    cases labels with
    | nil => simp at hlen
    | cons x xs =>
      have hx : xs.length = t.length := by simpa using hlen
      cases hxe : (x == -1) <;>
        simp [List.zip_cons_cons, List.filter_cons, List.countP_cons, hxe,
          ih xs hx]

/-- With enough fuel, the UTF-8 decoder maps an all-ASCII byte list to
itself. -/
theorem decodeUtf8Go_ascii :
    ∀ (fuel : ℕ) (l : List ℕ), (∀ x ∈ l, x < 128) → l.length ≤ fuel →
      decodeUtf8Go fuel l = some l := by
  intro fuel
  induction fuel with
  | zero =>
    intro l h hl
    cases l with
    | nil => rfl
    | cons b rest => simp at hl
  | succ f ih =>
    intro l h hl
    cases l with
    | nil => rfl
    | cons b rest =>
      have hb : b < 128 := h b (by simp)
      have hrest : ∀ x ∈ rest, x < 128 := fun x hx => h x (by simp [hx])
      simp only [decodeUtf8Go, if_pos hb]
      rw [ih rest hrest (by simpa using Nat.le_of_succ_le_succ hl)]
      rfl

/-- The UTF-8 decoder is the identity on ASCII byte streams. -/
theorem decodeUtf8_ascii (l : List ℕ) (h : ∀ x ∈ l, x < 128) :
    decodeUtf8 l = some l :=
  decodeUtf8Go_ascii l.length l h le_rfl

/-- Sum of the residuals of an affine model in terms of the column
sums. -/
theorem sum_affine (a b : ℚ) :
    ∀ l : Dataset,
      (l.map (fun r => r.sales - (a * r.month + b))).sum
        = sumY l - (a * sumX l + (l.length : ℚ) * b) := by
  intro l
  induction l with
  | nil => simp [sumY, sumX]
  | cons r t ih =>
    simp only [List.map_cons, List.sum_cons, sumY, sumX, List.length_cons] at ih ⊢
    rw [ih]
    push_cast
    ring

/-- Sum of the Month-weighted residuals of an affine model in terms of
the column sums. -/
theorem sum_affine_x (a b : ℚ) :
    ∀ l : Dataset,
      (l.map (fun r => (r.sales - (a * r.month + b)) * r.month)).sum
        = sumXY l - a * sumXX l - b * sumX l := by
  intro l
  induction l with
  | nil => simp [sumXY, sumXX, sumX]
  | cons r t ih =>
    simp only [List.map_cons, List.sum_cons, sumXY, sumXX, sumX] at ih ⊢
    rw [ih]
    ring

/-- Quadratic decomposition of the residual sum of squares around a
reference line `(a, b)`. -/
theorem rss_decomp (a b a' b' : ℚ) :
    ∀ l : Dataset,
      rss l a' b' = rss l a b
        + 2 * ((a - a')
              * (l.map (fun r => (r.sales - (a * r.month + b)) * r.month)).sum
            + (b - b')
              * (l.map (fun r => r.sales - (a * r.month + b))).sum)
        + (l.map (fun r => ((a - a') * r.month + (b - b')) ^ 2)).sum := by
  intro l
  induction l with
  | nil => simp [rss]
  | cons r t ih =>
    simp only [rss, List.map_cons, List.sum_cons] at ih ⊢
    rw [ih]
    ring

/-- The length of a non-empty dataset is a nonzero rational. -/
theorem nQ_ne_zero (ds : Dataset) (h : ds ≠ []) : nQ ds ≠ 0 := by
  simp only [nQ, ne_eq, Nat.cast_eq_zero, List.length_eq_zero]
  exact h

/-- The OLS residuals sum to zero (orthogonality to the constant). -/
theorem sum_resid_eq_zero (ds : Dataset) (h : ds ≠ []) :
    (ds.map (fun r =>
        r.sales - (olsSlope ds * r.month + olsIntercept ds))).sum = 0 := by
  have hn : nQ ds ≠ 0 := nQ_ne_zero ds h
  rw [sum_affine]
  rw [olsIntercept]
  have hlen : ((ds.length : ℚ)) = nQ ds := rfl
  rw [hlen]
  field_simp

/-- The OLS residuals are orthogonal to the Month column. -/
theorem sum_residx_eq_zero (ds : Dataset) (h : ds ≠ [])
    (hd : olsDenom ds ≠ 0) :
    (ds.map (fun r =>
        (r.sales - (olsSlope ds * r.month + olsIntercept ds)) * r.month)).sum
      = 0 := by
  have hn : nQ ds ≠ 0 := nQ_ne_zero ds h
  have hd' : nQ ds * sumXX ds - sumX ds * sumX ds ≠ 0 := by
    rw [← olsDenom]
    exact hd
  rw [sum_affine_x, olsIntercept, olsSlope, olsDenom]
  field_simp
  ring

/-- The closed-form coefficients minimise the residual sum of squares
over all lines: they are the (unique, given a nonzero denominator) OLS
fit of Sales on Month. -/
theorem ols_min (ds : Dataset) (h : ds ≠ []) (hd : olsDenom ds ≠ 0)
    (a' b' : ℚ) :
    rss ds (olsSlope ds) (olsIntercept ds) ≤ rss ds a' b' := by
  rw [rss_decomp (olsSlope ds) (olsIntercept ds) a' b' ds,
    sum_resid_eq_zero ds h, sum_residx_eq_zero ds h hd]
  have hnn : 0 ≤ (ds.map (fun r =>
      ((olsSlope ds - a') * r.month + (olsIntercept ds - b')) ^ 2)).sum := by
    apply List.sum_nonneg
    intro x hx
    obtain ⟨r, _, rfl⟩ := List.mem_map.mp hx
    positivity
  nlinarith [hnn]

/-- C1 (amended): whenever the regression fit succeeds with a
non-degenerate design (`olsDenom ds ≠ 0`), the Forecaster produces
exactly six points, the i-th for the integer month
`trunc(max(Month)) + 1 + i` — consecutive ascending months, equal to
`max(Month)+1 .. max(Month)+6` whenever the maximum Month is an
integer — each valued `a·m + b`, where `(a, b)` minimise the residual
sum of squares (the OLS fit of Sales on Month). -/
theorem forecaster_ok (ds : Dataset) (a b : ℚ)
    (hfit : fitLinReg ds = Except.ok (a, b)) (hd : olsDenom ds ≠ 0) :
    forecasterSpec ds a b := by
  have hne : ds ≠ [] := by
    intro hnil
    rw [hnil] at hfit
    simp [fitLinReg] at hfit
  have hfalse : ds.isEmpty = false := by
    cases ds with
    | nil => exact absurd rfl hne
    | cons r t => rfl
  rw [fitLinReg, hfalse] at hfit
  simp only [Bool.false_eq_true, if_false] at hfit
  have hpair := Except.ok.inj hfit
  have ha : olsSlope ds = a := congrArg Prod.fst hpair
  have hb : olsIntercept ds = b := congrArg Prod.snd hpair
  refine ⟨by simp only [futureMonths, List.length_map, List.length_range], ?_, ?_⟩
  · intro i hh
    simp only [futureMonths, List.get_eq_getElem, List.getElem_map,
      List.getElem_range]
    rw [Prod.ext_iff]
    constructor
    · show ((ratTrunc (maxMonth ds) + 1 + (i : ℤ) : ℤ) : ℚ) = _
      push_cast
      ring
    · show a * ((ratTrunc (maxMonth ds) + 1 + (i : ℤ) : ℤ) : ℚ) + b = _
      push_cast
      ring
  · intro a' b'
    rw [← ha, ← hb]
    exact ols_min ds hne hd a' b'

/-- C1 witness: the concrete dataset `dsLine` fits the line `s = 2m`,
and the amended Forecaster contract holds there. -/
theorem forecaster_ok_witness :
    fitLinReg dsLine = Except.ok (2, 0) ∧ olsDenom dsLine ≠ 0 ∧
      forecasterSpec dsLine 2 0 := by
  have h1 : fitLinReg dsLine = Except.ok (2, 0) := by
    norm_num [fitLinReg, dsLine, olsSlope, olsIntercept, olsDenom, nQ,
      sumX, sumY, sumXY, sumXX]
  have h2 : olsDenom dsLine ≠ 0 := by
    norm_num [dsLine, olsDenom, nQ, sumX, sumXX]
  exact ⟨h1, h2, forecaster_ok dsLine 2 0 h1 h2⟩

/-- C1 counterexample: on the cleaned dataset `dsHalf`, whose maximum
Month is `7/2`, the fit is non-degenerate yet the six forecast months
`4, 5, …, 9` produced by the code (which truncates the maximum with
Python's `int()`) differ from the months `max(Month)+1 .. max(Month)+6`
stated by the claim, which would be `9/2, 11/2, …, 19/2`. -/
theorem forecaster_counterexample :
    olsDenom dsHalf ≠ 0 ∧
      (futureMonths dsHalf (olsSlope dsHalf, olsIntercept dsHalf)).map Prod.fst
        ≠ (List.range 6).map (fun i => maxMonth dsHalf + 1 + (i : ℚ)) := by
  constructor
  · norm_num [dsHalf, olsDenom, nQ, sumX, sumXX]
  · norm_num [futureMonths, dsHalf, maxMonth, listMax, ratTrunc, Int.tdiv,
      List.range_succ]

/-- C2: with "Month" and "Sales" located at columns `mi` and `si`, the
Cleaner keeps exactly those rows whose Month and Sales cells both
coerce to numbers, drops the rest, projects each survivor to the two
coerced values, and preserves the input order. -/
theorem cleaner_ok (t : Table) (mi si : ℕ)
    (hm : monthIdx t = some mi) (hs : salesIdx t = some si) :
    cleanerSpec t mi si := by
  unfold cleanerSpec
  have hclean : cleanTable t = t.rows.filterMap (coerceRecord mi si) := by
    rw [cleanTable, hm, hs]
  rw [hclean]
  apply filterMap_eq_filter_map
  · intro row
    unfold rowKeeps coerceRecord
    cases toNumeric (cellAt row mi) <;> cases toNumeric (cellAt row si) <;> simp
  · intro row rec hrec
    unfold coerceRecord at hrec
    unfold rowRecord
    cases hm' : toNumeric (cellAt row mi) <;>
      cases hs' : toNumeric (cellAt row si) <;>
      rw [hm', hs'] at hrec <;> simp at hrec
    simp [← hrec]

/-- C2 witness: on the concrete table `tblMixed` the Cleaner keeps rows
1 and 3 (projected to their numeric Month and Sales), dropping the row
whose Month cell does not coerce. -/
theorem cleaner_ok_witness :
    monthIdx tblMixed = some 1 ∧ salesIdx tblMixed = some 2 ∧
      cleanTable tblMixed
        = [{ month := 1, sales := 10 }, { month := 3, sales := 30 }] ∧
      cleanerSpec tblMixed 1 2 :=
  ⟨by decide, by decide, by decide, cleaner_ok tblMixed 1 2 (by decide) (by decide)⟩

/-- C3: when (after name stripping) either required column is missing
under exact case-sensitive matching, the pipeline halts with the schema
error and nothing further runs; when both are present the pipeline
never produces a user-visible error, so the check passes. -/
theorem validator_ok (iso : IsoModel) (t : Table) : validatorSpec iso t := by
  unfold validatorSpec
  by_cases hc : ((stripCols t).cols.contains "Month"
      && (stripCols t).cols.contains "Sales") = true
  · refine ⟨fun h => absurd hc h, fun _ => ?_⟩
    intro msg
    simp only [pipeline, cleanPipe, hc, if_true]
    cases hfit : fitLinReg (cleanTable (stripCols t)) with
    | error m => simp [hfit]
    | ok ab => simp [hfit]
  · refine ⟨fun _ => ?_, fun h => absurd h hc⟩
    simp only [pipeline, cleanPipe, hc, Bool.false_eq_true, if_false]

/-- C3 witness: the wrong-case table halts with the schema error, and
the right-case table never yields a user-visible error. -/
theorem validator_ok_witness :
    pipeline trivIso tblWrongCase = Except.error (PErr.user schemaErrMsg) ∧
      ∀ msg, pipeline trivIso tblRightCase ≠ Except.error (PErr.user msg) :=
  ⟨(validator_ok trivIso tblWrongCase).1 (by decide),
   (validator_ok trivIso tblRightCase).2 (by decide)⟩

/-- Reading the Sales column through `map` agrees with projecting the
record found at the same position. -/
theorem get_map_sales (ds : Dataset) (j : ℕ)
    (hj : j < (ds.map Record.sales).length) :
    (ds.map Record.sales).get ⟨j, hj⟩
      = (ds.get ⟨j, by simpa using hj⟩).sales := by
  simp [List.get_eq_getElem, List.getElem_map]

/-- The peak-month computation returns the Month of the first record of
maximal Sales: that record's Sales bounds the whole column and strictly
exceeds every earlier record's Sales. -/
theorem peak_full (ds : Dataset) (hne : ds ≠ []) : peakSpec ds := by
  have hmape : ds.map Record.sales ≠ [] := by
    simpa using hne
  cases hidx : idxmax (ds.map Record.sales) with
  | none =>
    have hsome := idxmax_isSome (ds.map Record.sales) hmape
    rw [hidx] at hsome
    simp at hsome
  | some p =>
    obtain ⟨i, v⟩ := p
    obtain ⟨hlt, hget, hle, hfirst⟩ := idxmax_spec (ds.map Record.sales) i v hidx
    have hilen : i < ds.length := by simpa using hlt
    have hv : (ds.get ⟨i, hilen⟩).sales = v := by
      rw [← hget, get_map_sales]
    refine ⟨i, hilen, ?_, ?_, ?_⟩
    · have hpm : peakMonth ds
          = (ds.getD i { month := 0, sales := 0 }).month := by
        rw [peakMonth, hidx]
      rw [hpm, List.getD_eq_get ds _ hilen]
    · intro j hj
      have h1 := hle j (by simpa using hj)
      rw [get_map_sales] at h1
      rw [hv]
      exact h1
    · intro j hj hji
      have h1 := hfirst j (by simpa using hj) hji
      rw [get_map_sales] at h1
      rw [hv]
      exact h1

/-- C4: on a non-empty cleaned dataset the four summary statistics are
the sum of Sales, the mean of Sales, the Month of a record with maximal
single-record Sales, and the number of records (rows, not distinct
months) labelled anomalous. -/
theorem presenter_ok (iso : IsoModel) (ds : Dataset) (hne : ds ≠ []) :
    presenterSpec iso ds := by
  refine ⟨?_, ?_, ?_, ?_⟩
  · simp [totalSales, seriesSum_eq_sum]
  · simp [avgSales, seriesMean, seriesSum_eq_sum]
  · obtain ⟨i, h, heq, hle, _⟩ := peak_full ds hne
    exact ⟨i, h, heq, hle⟩
  · have hlen := iso.length_eq 42 (3 / 20) (ds.map Record.sales)
    simp only [anomalyCount, anomalies, anomalyLabels, List.length_map]
    exact zip_filter_count ds _ (by simpa using hlen)

/-- C4 witness: the summary contract holds on the concrete non-empty
dataset `dsTie`. -/
theorem presenter_ok_witness : dsTie ≠ [] ∧ presenterSpec trivIso dsTie :=
  ⟨by decide, presenter_ok trivIso dsTie (by decide)⟩

/-- C5: the anomaly labels are a function of the seed (fixed at 42),
the contamination (fixed at 0.15) and the Sales column alone, so two
runs on identical input data — indeed on any two datasets with the same
Sales column — produce identical per-record labels. -/
theorem anomaly_deterministic (iso : IsoModel) (d1 d2 : Dataset)
    (h : d1.map Record.sales = d2.map Record.sales) :
    anomalyLabels iso d1 = anomalyLabels iso d2 := by
  unfold anomalyLabels
  rw [h]

/-- C5 witness: two datasets with equal Sales columns (and different
months) receive identical labels. -/
theorem anomaly_deterministic_witness :
    anomalyLabels trivIso [{ month := 1, sales := 5 }]
      = anomalyLabels trivIso [{ month := 2, sales := 5 }] :=
  anomaly_deterministic trivIso _ _ rfl

/-- C6: on input whose rows all fail numeric coercion the cleaned
dataset is empty, and the pipeline then terminates with the uncaught
fit exception (raised at line 54, outside the `try` block of lines
22-38) rather than a user-visible error. -/
theorem empty_clean_fit_uncaught (iso : IsoModel) :
    cleanPipe tblAllBad = Except.ok [] ∧
      pipeline iso tblAllBad = Except.error (PErr.uncaught fitErrMsg) := by
  have h : cleanPipe tblAllBad = Except.ok [] := by decide
  refine ⟨h, ?_⟩
  simp [pipeline, h, fitLinReg]

/-- C7 (amended): on an all-ASCII byte stream both decoders return the
same text, so the primary and fallback paths yield identical cleaned
data; Latin-1 decoding is total on arbitrary byte streams; and a UTF-8
decode failure makes the loader fall back to Latin-1. -/
theorem loader_ok (b : List ℕ) (h : ∀ x ∈ b, x < 128) : loaderSpec b := by
  have hu : decodeUtf8 b = some b := decodeUtf8_ascii b h
  refine ⟨hu, rfl, ?_, fun bs => rfl, ?_⟩
  · simp [cleanedVia, hu, decodeLatin1]
  · intro bs hnone
    simp [read_csv_auto, hnone, decodeLatin1]

/-- C7 witness: the loader contract at the ASCII bytes of
"Month,Sales\n1,2". -/
theorem loader_ok_witness :
    (∀ x ∈ asciiBytes, x < 128) ∧ loaderSpec asciiBytes :=
  ⟨by decide, loader_ok asciiBytes (by decide)⟩

/-- C7 counterexample: `nbspBytes` decodes successfully as UTF-8, yet
the primary path accepts the table (the non-breaking space in the
header is stripped) while the fallback path halts with the schema
error, so the two paths do not yield identical cleaned data. -/
theorem loader_counterexample :
    (decodeUtf8 nbspBytes).isSome = true ∧
      cleanedVia decodeUtf8 nbspBytes ≠ cleanedVia decodeLatin1 nbspBytes := by
  decide

/-- Coercing the all-numeric rows of a cleaned dataset reproduces the
dataset. -/
theorem filterMap_coerce_map (ds : Dataset) :
    List.filterMap (coerceRecord 0 1)
      (ds.map (fun r => [Cell.num r.month, Cell.num r.sales])) = ds := by
  induction ds with
  | nil => rfl
  | cons r t ih =>
    simp only [List.map_cons, List.filterMap_cons]
    rw [show coerceRecord 0 1 [Cell.num r.month, Cell.num r.sales] = some r
      from rfl]
    rw [ih]

/-- The Cleaner is the identity on the table form of a cleaned
dataset. -/
theorem cleanTable_datasetToTable (ds : Dataset) :
    cleanTable (datasetToTable ds) = ds := by
  have hm : monthIdx (datasetToTable ds) = some 0 := by
    simp only [monthIdx, datasetToTable]
    decide
  have hs : salesIdx (datasetToTable ds) = some 1 := by
    simp only [salesIdx, datasetToTable]
    decide
  have hclean : cleanTable (datasetToTable ds)
      = (datasetToTable ds).rows.filterMap (coerceRecord 0 1) := by
    rw [cleanTable, hm, hs]
  rw [hclean]
  simp only [datasetToTable]
  exact filterMap_coerce_map ds

/-- C8: running the Cleaner on already-clean data — exactly the two
numeric columns Month and Sales with no missing values — returns that
same Dataset, so cleaning twice equals cleaning once. -/
theorem cleaner_idempotent (ds : Dataset) :
    cleanPipe (datasetToTable ds) = Except.ok ds := by
  have hst : stripCols (datasetToTable ds) = datasetToTable ds := by
    unfold stripCols datasetToTable
    simp only [Table.mk.injEq]
    exact ⟨by decide, trivial⟩
  unfold cleanPipe
  rw [hst]
  have hcond : ((datasetToTable ds).cols.contains "Month"
      && (datasetToTable ds).cols.contains "Sales") = true := by
    simp only [datasetToTable]
    decide
  rw [if_pos hcond, cleanTable_datasetToTable]

/-- C8 witness: cleaning the table form of a concrete cleaned dataset
returns that dataset. -/
theorem cleaner_idempotent_witness :
    cleanPipe (datasetToTable [{ month := 1, sales := 2 }])
      = Except.ok [{ month := 1, sales := 2 }] :=
  cleaner_idempotent [{ month := 1, sales := 2 }]

/-- The Aggregator's contract on an arbitrary dataset. -/
theorem agg_all (ds : Dataset) : aggSpec ds := by
  unfold aggSpec groupMean
  refine ⟨?_, ?_, ?_⟩
  · intro m
    rw [List.map_map]
    simp [Function.comp, List.mem_dedup,
      (List.perm_insertionSort (· ≤ ·) (ds.map Record.month)).mem_iff]
  · have hcomp : (Prod.fst ∘ fun m : ℚ =>
        (m, seriesMean ((ds.filter (fun r => r.month == m)).map Record.sales)))
        = id := rfl
    rw [List.map_map, hcomp, List.map_id]
    exact List.nodup_dedup _
  · intro p hp
    obtain ⟨m, _, rfl⟩ := List.mem_map.mp hp
    simp [seriesMean, seriesSum_eq_sum]

/-- C9: both grouped series — over the full cleaned dataset and over
the anomaly-only subset — have exactly one entry per distinct Month,
valued at the arithmetic mean of Sales over the records sharing that
Month. -/
theorem aggregator_ok (iso : IsoModel) (ds : Dataset) :
    aggSpec ds ∧ aggSpec (anomalies ds (anomalyLabels iso ds)) :=
  ⟨agg_all ds, agg_all (anomalies ds (anomalyLabels iso ds))⟩

/-- C9 witness: the Aggregator contract at the concrete dataset
`dsGroups` with months 2, 1, 2. -/
theorem aggregator_ok_witness :
    aggSpec dsGroups ∧
      aggSpec (anomalies dsGroups (anomalyLabels trivIso dsGroups)) :=
  aggregator_ok trivIso dsGroups

/-- C10: on a non-empty cleaned dataset the reported peak month is the
Month of the first record (in input row order) attaining the maximum
Sales, so ties are broken by earliest position. -/
theorem peak_first_ok (ds : Dataset) (hne : ds ≠ []) : peakSpec ds :=
  peak_full ds hne

/-- C10 witness: on `dsTie` — months 2 and 3 tie at Sales 9 — the peak
month is 2, the earlier row, and the tie contract holds. -/
theorem peak_first_ok_witness : peakMonth dsTie = 2 ∧ peakSpec dsTie :=
  ⟨by decide, peak_first_ok dsTie (by decide)⟩

end SalesDash
